import Mathlib

/-!
Shallow embedding of the High-Low solitaire game core:
the card model, deck construction and Fisher-Yates shuffle, the
game-session store (`startNewGame`, `peekMove`, `makeMove`) and the
probability engine (`calculateProbabilities`).

Sources: `src/types/GameState.ts`, `src/types/CardTypes.ts`,
`src/store/gameState.ts` (the card-counting variant of the store, which
additionally maintains the `seenCards` ledger; its deck/stack/flag logic
is character-for-character identical to `src/store/gameState.ts`), and
`src/utils/probabilityCalculations.ts`.

Stateful store operations are embedded by explicit state passing: an
exported store function that may throw returns an `Except` result paired
with the new store contents; a thrown error that propagates to the caller
leaves the store contents unchanged, exactly as in the source, where
`$gameState.set` is only reached on non-throwing paths.

Randomness (`Math.random()` inside the shuffle) is embedded by an oracle
`rand : Nat → Nat`; the index drawn at a step with `currentIndex = n` is
`rand n % n`, which ranges over exactly the values
`Math.floor(Math.random() * n)` can take.
-/

inductive Suit where
  | Hearts | Diamonds | Clubs | Spades
deriving DecidableEq, Repr, Inhabited, Fintype

inductive Rank where
  | Ace | R2 | R3 | R4 | R5 | R6 | R7 | R8 | R9 | R10 | Jack | Queen | King
deriving DecidableEq, Repr, Inhabited, Fintype

structure Card where
  suit : Suit
  rank : Rank
deriving DecidableEq, Repr, Inhabited, Fintype

inductive Status where
  | active | failed
deriving DecidableEq, Repr, Inhabited

structure Stack where
  cards : List Card
  status : Status
deriving DecidableEq, Repr, Inhabited

/-- The fixed 3×3 grid of card stacks (`Stacks` in `GameState.ts`), row-major. -/
structure Stacks where
  r1c1 : Stack
  r1c2 : Stack
  r1c3 : Stack
  r2c1 : Stack
  r2c2 : Stack
  r2c3 : Stack
  r3c1 : Stack
  r3c2 : Stack
  r3c3 : Stack
deriving DecidableEq, Repr, Inhabited

/-- Read the stack at (row, column); indices are the 0-based
`stackRow - 1`, `stackColumn - 1` used by the source's array accesses. -/
def Stacks.get (g : Stacks) (r c : Fin 3) : Stack :=
  match r.val, c.val with
  | 0, 0 => g.r1c1
  | 0, 1 => g.r1c2
  | 0, 2 => g.r1c3
  | 1, 0 => g.r2c1
  | 1, 1 => g.r2c2
  | 1, 2 => g.r2c3
  | 2, 0 => g.r3c1
  | 2, 1 => g.r3c2
  | _, _ => g.r3c3

/-- Replace the stack at (row, column) (the source's
`updatedStacks[stackRow - 1][stackColumn - 1] = updatedStack`). -/
def Stacks.set (g : Stacks) (r c : Fin 3) (st : Stack) : Stacks :=
  match r.val, c.val with
  | 0, 0 => { g with r1c1 := st }
  | 0, 1 => { g with r1c2 := st }
  | 0, 2 => { g with r1c3 := st }
  | 1, 0 => { g with r2c1 := st }
  | 1, 1 => { g with r2c2 := st }
  | 1, 2 => { g with r2c3 := st }
  | 2, 0 => { g with r3c1 := st }
  | 2, 1 => { g with r3c2 := st }
  | _, _ => { g with r3c3 := st }

/-- `getAllVisibleCards` from `probabilityCalculations.ts`: every card in
every stack (including buried cards), in row-major stack order. -/
def getAllVisibleCards (g : Stacks) : List Card :=
  g.r1c1.cards ++ g.r1c2.cards ++ g.r1c3.cards ++
  g.r2c1.cards ++ g.r2c2.cards ++ g.r2c3.cards ++
  g.r3c1.cards ++ g.r3c2.cards ++ g.r3c3.cards

/-- `getRankValue` from `probabilityCalculations.ts`. -/
def getRankValue (rank : Rank) : Nat :=
  match rank with
  | .R2 => 2
  | .R3 => 3
  | .R4 => 4
  | .R5 => 5
  | .R6 => 6
  | .R7 => 7
  | .R8 => 8
  | .R9 => 9
  | .R10 => 10
  | .Jack => 11
  | .Queen => 12
  | .King => 13
  | .Ace => 14

/-- The `rankOrder` table local to `compareRanks` in `gameState.ts`
(numerically identical to `getRankValue`). -/
def rankOrder (rank : Rank) : Nat :=
  match rank with
  | .R2 => 2
  | .R3 => 3
  | .R4 => 4
  | .R5 => 5
  | .R6 => 6
  | .R7 => 7
  | .R8 => 8
  | .R9 => 9
  | .R10 => 10
  | .Jack => 11
  | .Queen => 12
  | .King => 13
  | .Ace => 14

/-- `compareRanks` from `gameState.ts`: 1 if `card1` is higher, -1 if
`card2` is higher, 0 if equal rank. -/
def compareRanks (card1 card2 : Card) : Int :=
  let rank1 := rankOrder card1.rank
  let rank2 := rankOrder card2.rank
  if rank1 > rank2 then 1
  else if rank1 < rank2 then -1
  else 0

/-- `getAllRanks` from `probabilityCalculations.ts`. -/
def getAllRanks : List Rank :=
  [.R2, .R3, .R4, .R5, .R6, .R7, .R8, .R9, .R10, .Jack, .Queen, .King, .Ace]

/-- `rawDeck` from `gameState.ts`: 4 suits × 13 ranks, suit-major, ranks
listed Ace first as in the source literal. -/
def rawDeck : List Card :=
  ([Suit.Hearts, Suit.Diamonds, Suit.Clubs, Suit.Spades]).flatMap fun suit =>
    ([Rank.Ace, .R2, .R3, .R4, .R5, .R6, .R7, .R8, .R9, .R10,
      .Jack, .Queen, .King]).map fun rank => { suit := suit, rank := rank }

inductive GameError where
  | outOfCards
  | invalidMove
deriving DecidableEq, Repr

/-- Decidable equality of `Except` results, used to evaluate concrete
game outcomes. -/
instance {e a : Type} [DecidableEq e] [DecidableEq a] :
    DecidableEq (Except e a)
  | .error x, .error y =>
    if h : x = y then .isTrue (congrArg Except.error h)
    else .isFalse fun hc => h (Except.error.inj hc)
  | .error _, .ok _ => .isFalse fun hc => Except.noConfusion hc
  | .ok _, .error _ => .isFalse fun hc => Except.noConfusion hc
  | .ok x, .ok y =>
    if h : x = y then .isTrue (congrArg Except.ok h)
    else .isFalse fun hc => h (Except.ok.inj hc)

/-- `drawCard` from `gameState.ts`: throws `OutOfCardsError` on an empty
deck, otherwise pops (removes and returns) the last element. -/
def drawCard (deck : List Card) : Except GameError (Card × List Card) :=
  match deck.getLast? with
  | none => .error .outOfCards
  | some c => .ok (c, deck.dropLast)

/-- One swap step of the source's in-place Fisher-Yates: exchange the
elements at positions `i` and `j` (both reads happen before the writes,
as in the JS destructuring assignment). -/
def listSwap (l : List Card) (i j : Nat) : List Card :=
  match l[i]?, l[j]? with
  | some a, some b => (l.set i b).set j a
  | _, _ => l

/-- The loop of `shuffleDeck`: with `currentIndex = n + 1`, pick
`randomIndex = rand (n+1) % (n+1)`, decrement, swap positions `n` and
`randomIndex`, and continue. -/
def shuffleAux (rand : Nat → Nat) : Nat → List Card → List Card
  | 0, arr => arr
  | n + 1, arr => shuffleAux rand n (listSwap arr n (rand (n + 1) % (n + 1)))

/-- `shuffleDeck` from `gameState.ts`, parameterized by the random
oracle. -/
def shuffleDeck (rand : Nat → Nat) (deck : List Card) : List Card :=
  shuffleAux rand deck.length deck

structure CardCount where
  rank : Rank
  total : Nat
  seen : Nat
  remaining : Int
deriving DecidableEq, Repr, Inhabited

/-- `getCardCounts` from `probabilityCalculations.ts`. -/
def getCardCounts (seenCards : List Card) : List CardCount :=
  getAllRanks.map fun rank =>
    let total := 4
    let seen := (seenCards.filter fun card => card.rank = rank).length
    { rank := rank, total := total, seen := seen,
      remaining := (total : Int) - (seen : Int) }

structure ProbabilityCalculation where
  higher : ℚ
  lower : ℚ
  same : ℚ
  total : Nat
deriving DecidableEq, Repr, Inhabited

/-- `calculateProbabilities` from `probabilityCalculations.ts`, with the
source's floating-point divisions carried out exactly in ℚ.  The three
counters accumulate over `remainingCards` exactly as the source's
`forEach` if / else-if / else chain does. -/
def calculateProbabilities (currentCard : Card) (remainingCards : List Card) :
    ProbabilityCalculation :=
  let currentRank := getRankValue currentCard.rank
  let higher := remainingCards.countP fun card =>
    decide (getRankValue card.rank > currentRank)
  let lower := remainingCards.countP fun card =>
    !(decide (getRankValue card.rank > currentRank)) &&
      decide (getRankValue card.rank < currentRank)
  let same := remainingCards.countP fun card =>
    !(decide (getRankValue card.rank > currentRank)) &&
      !(decide (getRankValue card.rank < currentRank))
  let total := remainingCards.length
  { higher := if total > 0 then (higher : ℚ) / (total : ℚ) else 0
    lower := if total > 0 then (lower : ℚ) / (total : ℚ) else 0
    same := if total > 0 then (same : ℚ) / (total : ℚ) else 0
    total := total }

/-- `CardCountingData` from `GameState.ts` (card-counting variant). -/
structure CardCountingData where
  seenCards : List Card
  cardCounts : List CardCount
  probabilities : Option ProbabilityCalculation
deriving DecidableEq, Repr, Inhabited

/-- `GameState` from `GameState.ts` (card-counting variant, which adds
the `cardCounting` ledger to the base state). -/
structure GameState where
  drawDeck : List Card
  stacks' : Stacks
  won : Bool
  lost : Bool
  cardCounting : CardCountingData
deriving DecidableEq, Repr, Inhabited

inductive HighLowSame where
  | high | low | same
deriving DecidableEq, Repr

/-- `PlayerMove` from `GameState.ts`.  The source's `stackRow` and
`stackColumn` are the literals 1 | 2 | 3; we store the 0-based indices
`stackRow - 1` and `stackColumn - 1` that the source's array accesses
use. -/
structure PlayerMove where
  stackRow : Fin 3
  stackColumn : Fin 3
  highLowSame : HighLowSame
  card : Card
deriving DecidableEq, Repr

/-- The `predictedResult` computation shared by `peekMove` and
`makeMove`. -/
def predictedResult (highLowSame : HighLowSame) : Int :=
  match highLowSame with
  | .high => 1
  | .low => -1
  | .same => 0

/-- `initializeDeckAndStacks` from `gameState.ts`: shuffle a copy of
`rawDeck`, then draw one card per stack in row-major order. -/
def initializeDeckAndStacks (rand : Nat → Nat) :
    Except GameError (List Card × Stacks) :=
  match drawCard (shuffleDeck rand rawDeck) with
  | .error e => .error e
  | .ok (c1, d1) =>
  match drawCard d1 with
  | .error e => .error e
  | .ok (c2, d2) =>
  match drawCard d2 with
  | .error e => .error e
  | .ok (c3, d3) =>
  match drawCard d3 with
  | .error e => .error e
  | .ok (c4, d4) =>
  match drawCard d4 with
  | .error e => .error e
  | .ok (c5, d5) =>
  match drawCard d5 with
  | .error e => .error e
  | .ok (c6, d6) =>
  match drawCard d6 with
  | .error e => .error e
  | .ok (c7, d7) =>
  match drawCard d7 with
  | .error e => .error e
  | .ok (c8, d8) =>
  match drawCard d8 with
  | .error e => .error e
  | .ok (c9, d9) =>
  .ok (d9,
    { r1c1 := { cards := [c1], status := .active }
      r1c2 := { cards := [c2], status := .active }
      r1c3 := { cards := [c3], status := .active }
      r2c1 := { cards := [c4], status := .active }
      r2c2 := { cards := [c5], status := .active }
      r2c3 := { cards := [c6], status := .active }
      r3c1 := { cards := [c7], status := .active }
      r3c2 := { cards := [c8], status := .active }
      r3c3 := { cards := [c9], status := .active } })

/-- `startNewGame` from the card-counting store: fresh shuffled deal,
flags cleared, `seenCards` initialized to the nine dealt cards. -/
def startNewGame (rand : Nat → Nat) : Except GameError GameState :=
  match initializeDeckAndStacks rand with
  | .error e => .error e
  | .ok (drawDeck, stacks') =>
  .ok
    { drawDeck := drawDeck
      stacks' := stacks'
      won := false
      lost := false
      cardCounting :=
        { seenCards := getAllVisibleCards stacks'
          cardCounts := getCardCounts (getAllVisibleCards stacks')
          probabilities := none } }

structure PeekResult where
  drawnCard : Card
  wouldBeCorrect : Bool
deriving DecidableEq, Repr

/-- `peekMove` from the store: reads the top of the draw pile without
removing it; throws `OutOfCardsError` on an empty pile.  The source
contains no `$gameState.set` call, so the store contents (second
component) are returned unchanged. -/
def peekMove (move : PlayerMove) (currentState : GameState) :
    Except GameError PeekResult × GameState :=
  (match currentState.drawDeck.getLast? with
   | none => .error .outOfCards
   | some drawnCard =>
      let comparisonResult := compareRanks drawnCard move.card
      let wouldBeCorrect :=
        comparisonResult = predictedResult move.highLowSame
      .ok { drawnCard := drawnCard, wouldBeCorrect := wouldBeCorrect },
   currentState)

/-- The source's `stillPlaying` check:
`updatedStacks.some (row => row.some (stack => stack.status === "active"))`. -/
def anyActive (g : Stacks) : Bool :=
  (g.r1c1.status = Status.active || g.r1c2.status = Status.active ||
     g.r1c3.status = Status.active) ||
  (g.r2c1.status = Status.active || g.r2c2.status = Status.active ||
     g.r2c3.status = Status.active) ||
  (g.r3c1.status = Status.active || g.r3c2.status = Status.active ||
     g.r3c3.status = Status.active)

/-- `makeMove` from the card-counting store.  The pair result is
(`what the caller observes`, `the store contents afterwards`): the
`InvalidMoveError` throw propagates (`.error .invalidMove`) with the
store untouched; a thrown `OutOfCardsError` from `drawCard` is caught by
the source's `catch` block and discarded (`.ok` with the store
untouched); otherwise the popped deck and the updated grid, flags and
ledger are stored. -/
def makeMove (move : PlayerMove) (currentState : GameState) :
    Except GameError Unit × GameState :=
  let selectedStack := currentState.stacks'.get move.stackRow move.stackColumn
  if selectedStack.status = Status.failed then
    (.error .invalidMove, currentState)
  else
    match drawCard currentState.drawDeck with
    | .error _ => (.ok (), currentState)
    | .ok (drawnCard, poppedDeck) =>
      let comparisonResult := compareRanks drawnCard move.card
      if comparisonResult ≠ predictedResult move.highLowSame then
        -- wrong guess: put the card on the stack and mark it as failed
        let updatedStack : Stack :=
          { cards := selectedStack.cards ++ [drawnCard], status := .failed }
        let updatedStacks :=
          currentState.stacks'.set move.stackRow move.stackColumn updatedStack
        let newSeenCards := currentState.cardCounting.seenCards ++ [drawnCard]
        let stillPlaying := anyActive updatedStacks
        (.ok (),
          { drawDeck := poppedDeck
            stacks' := updatedStacks
            won := currentState.won
            lost := !stillPlaying
            cardCounting :=
              { seenCards := newSeenCards
                cardCounts := getCardCounts newSeenCards
                probabilities := none } })
      else
        -- correct guess: add the card to the stack and keep it active
        let updatedStack : Stack :=
          { cards := selectedStack.cards ++ [drawnCard],
            status := selectedStack.status }
        let updatedStacks :=
          currentState.stacks'.set move.stackRow move.stackColumn updatedStack
        let newSeenCards := currentState.cardCounting.seenCards ++ [drawnCard]
        let won := poppedDeck.length = 0
        (.ok (),
          { drawDeck := poppedDeck
            stacks' := updatedStacks
            won := won
            lost := currentState.lost
            cardCounting :=
              { seenCards := newSeenCards
                cardCounts := getCardCounts newSeenCards
                probabilities := none } })

/-- One committed state transition of the session store. -/
def Step (s s' : GameState) : Prop :=
  ∃ move : PlayerMove, (makeMove move s).2 = s'

/-- A session state reachable by `startNewGame` followed by any sequence
of `makeMove` calls. -/
def Reachable (s : GameState) : Prop :=
  ∃ (rand : Nat → Nat) (s0 : GameState),
    startNewGame rand = .ok s0 ∧ Relation.ReflTransGen Step s0 s

/-- The stack a move targets (`currentState.stacks[stackRow - 1][stackColumn - 1]`). -/
def targetStack (s : GameState) (m : PlayerMove) : Stack :=
  s.stacks'.get m.stackRow m.stackColumn

/-- `Failed` never holds together with `Active`: a status that is not
failed is active. -/
theorem Status.eq_active_of_ne_failed {st : Status} (h : st ≠ Status.failed) :
    st = Status.active := by
  cases st
  · rfl
  · exact absurd rfl h

theorem status_ne_active_iff {st : Status} :
    ¬st = Status.active ↔ st = Status.failed := by
  cases st <;> simp

/-- Counting elements after a single `List.set`, stated without natural
subtraction. -/
theorem count_set_add (l : List Card) (i : Nat) (b : Card) (h : i < l.length)
    (a : Card) :
    (l.set i b).count a + (if l[i] = a then 1 else 0)
      = l.count a + (if b = a then 1 else 0) := by
  induction l generalizing i with
  | nil => simp at h
  | cons x xs ih =>
    cases i with
    | zero =>
      simp only [List.set_cons_zero, List.count_cons, List.getElem_cons_zero,
        beq_iff_eq]
      split_ifs <;> omega
    | succ j =>
      have hj : j < xs.length := by simpa using h
      have := ih j hj
      simp only [List.set_cons_succ, List.count_cons, List.getElem_cons_succ,
        beq_iff_eq] at this ⊢
      split_ifs at this ⊢ <;> omega

theorem count_listSwap (l : List Card) (i j : Nat) (a : Card) :
    (listSwap l i j).count a = l.count a := by
  cases hi : l[i]? with
  | none => simp only [listSwap, hi]
  | some x =>
    cases hj : l[j]? with
    | none => simp only [listSwap, hi, hj]
    | some y =>
      simp only [listSwap, hi, hj]
      have hi' : i < l.length := by
        by_contra hcon
        rw [List.getElem?_eq_none (by omega)] at hi
        exact Option.noConfusion hi
      have hj' : j < l.length := by
        by_contra hcon
        rw [List.getElem?_eq_none (by omega)] at hj
        exact Option.noConfusion hj
      have hx : l[i] = x := by
        have := List.getElem?_eq_getElem hi'
        rw [hi] at this
        exact (Option.some.injEq _ _).mp this.symm
      have hy : l[j] = y := by
        have := List.getElem?_eq_getElem hj'
        rw [hj] at this
        exact (Option.some.injEq _ _).mp this.symm
      have h1 := count_set_add l i y hi' a
      have hj'' : j < (l.set i y).length := by
        rw [List.length_set]; exact hj'
      have h2 := count_set_add (l.set i y) j x hj'' a
      have hread : (l.set i y)[j] = y := by
        by_cases hij : i = j
        · subst hij
          exact List.getElem_set_self (by rw [List.length_set]; exact hi')
        · rw [List.getElem_set_ne hij]
          exact hy
      rw [hread] at h2
      rw [hx] at h1
      split_ifs at h1 h2 ⊢ <;> omega

theorem listSwap_perm (l : List Card) (i j : Nat) : (listSwap l i j).Perm l :=
  List.perm_iff_count.mpr fun a => count_listSwap l i j a

theorem shuffleAux_perm (rand : Nat → Nat) (n : Nat) (arr : List Card) :
    (shuffleAux rand n arr).Perm arr := by
  induction n generalizing arr with
  | zero => exact List.Perm.refl arr
  | succ k ih =>
    exact (ih _).trans (listSwap_perm arr k (rand (k + 1) % (k + 1)))

/-- `shuffleDeck` returns a permutation of its input, whatever the random
oracle does. -/
theorem shuffleDeck_perm (rand : Nat → Nat) (deck : List Card) :
    (shuffleDeck rand deck).Perm deck :=
  shuffleAux_perm rand deck.length deck

theorem shuffleDeck_length (rand : Nat → Nat) (deck : List Card) :
    (shuffleDeck rand deck).length = deck.length :=
  (shuffleDeck_perm rand deck).length_eq

theorem drawCard_ok_of_getLast (deck : List Card) (c : Card)
    (h : deck.getLast? = some c) :
    drawCard deck = .ok (c, deck.dropLast) := by
  unfold drawCard
  rw [h]

theorem drawCard_error_of_nil : drawCard [] = .error .outOfCards := rfl

/-- Popping the last card splits the deck's multiset. -/
theorem coe_deck_split {deck : List Card} {c : Card}
    (h : deck.getLast? = some c) :
    (↑deck : Multiset Card) = ↑deck.dropLast + {c} := by
  conv_lhs => rw [← List.dropLast_append_getLast? c h]
  rw [← Multiset.coe_singleton, Multiset.coe_add]

theorem Stacks.get_set_self (g : Stacks) (r c : Fin 3) (st : Stack) :
    (g.set r c st).get r c = st := by
  fin_cases r <;> fin_cases c <;> rfl

theorem Stacks.get_set_ne (g : Stacks) (r c r' c' : Fin 3) (st : Stack)
    (h : ¬(r = r' ∧ c = c')) : (g.set r c st).get r' c' = g.get r' c' := by
  fin_cases r <;> fin_cases c <;> fin_cases r' <;> fin_cases c' <;>
    first
      | rfl
      | exact absurd ⟨rfl, rfl⟩ h

/-- Appending a card to one stack appends it to the visible-card
multiset. -/
theorem visible_set_append (g : Stacks) (r c : Fin 3) (d : Card) (st : Status) :
    (↑(getAllVisibleCards
        (g.set r c { cards := (g.get r c).cards ++ [d], status := st }))
      : Multiset Card)
      = ↑(getAllVisibleCards g) + {d} := by
  fin_cases r <;> fin_cases c <;>
    · simp only [getAllVisibleCards, Stacks.set, Stacks.get, ← Multiset.coe_add,
        ← Multiset.coe_singleton]
      abel

/-- All nine stacks failed. -/
def allFailed (g : Stacks) : Prop :=
  g.r1c1.status = Status.failed ∧ g.r1c2.status = Status.failed ∧
  g.r1c3.status = Status.failed ∧ g.r2c1.status = Status.failed ∧
  g.r2c2.status = Status.failed ∧ g.r2c3.status = Status.failed ∧
  g.r3c1.status = Status.failed ∧ g.r3c2.status = Status.failed ∧
  g.r3c3.status = Status.failed

theorem anyActive_eq_false_iff (g : Stacks) :
    anyActive g = false ↔ allFailed g := by
  simp only [anyActive, allFailed, Bool.or_eq_false_iff,
    decide_eq_false_iff_not, status_ne_active_iff, and_assoc]

theorem allFailed_get {g : Stacks} (h : allFailed g) (r c : Fin 3) :
    (g.get r c).status = Status.failed := by
  obtain ⟨h1, h2, h3, h4, h5, h6, h7, h8, h9⟩ := h
  fin_cases r <;> fin_cases c <;> assumption

/-- The state written by the wrong-guess branch of `makeMove`. -/
def wrongGuessState (s : GameState) (m : PlayerMove) (d : Card) : GameState :=
  { drawDeck := s.drawDeck.dropLast
    stacks' := s.stacks'.set m.stackRow m.stackColumn
      { cards := (s.stacks'.get m.stackRow m.stackColumn).cards ++ [d],
        status := .failed }
    won := s.won
    lost := !anyActive (s.stacks'.set m.stackRow m.stackColumn
      { cards := (s.stacks'.get m.stackRow m.stackColumn).cards ++ [d],
        status := .failed })
    cardCounting :=
      { seenCards := s.cardCounting.seenCards ++ [d]
        cardCounts := getCardCounts (s.cardCounting.seenCards ++ [d])
        probabilities := none } }

/-- The state written by the correct-guess branch of `makeMove`. -/
def correctGuessState (s : GameState) (m : PlayerMove) (d : Card) : GameState :=
  { drawDeck := s.drawDeck.dropLast
    stacks' := s.stacks'.set m.stackRow m.stackColumn
      { cards := (s.stacks'.get m.stackRow m.stackColumn).cards ++ [d],
        status := (s.stacks'.get m.stackRow m.stackColumn).status }
    won := s.drawDeck.dropLast.length = 0
    lost := s.lost
    cardCounting :=
      { seenCards := s.cardCounting.seenCards ++ [d]
        cardCounts := getCardCounts (s.cardCounting.seenCards ++ [d])
        probabilities := none } }

theorem makeMove_failed {s : GameState} {m : PlayerMove}
    (h : (targetStack s m).status = Status.failed) :
    makeMove m s = (.error .invalidMove, s) := by
  have h' : (s.stacks'.get m.stackRow m.stackColumn).status = Status.failed := h
  simp [makeMove, h']

theorem makeMove_outOfCards {s : GameState} {m : PlayerMove}
    (h1 : (targetStack s m).status ≠ Status.failed) (h2 : s.drawDeck = []) :
    makeMove m s = (.ok (), s) := by
  have h1' : ¬(s.stacks'.get m.stackRow m.stackColumn).status = Status.failed := h1
  simp [makeMove, h1', h2, drawCard]

theorem makeMove_wrong {s : GameState} {m : PlayerMove} {d : Card}
    (h1 : (targetStack s m).status ≠ Status.failed)
    (h2 : s.drawDeck.getLast? = some d)
    (h3 : compareRanks d m.card ≠ predictedResult m.highLowSame) :
    makeMove m s = (.ok (), wrongGuessState s m d) := by
  have h1' : ¬(s.stacks'.get m.stackRow m.stackColumn).status = Status.failed := h1
  simp [makeMove, h1', drawCard_ok_of_getLast _ _ h2, h3, wrongGuessState]

theorem makeMove_correct {s : GameState} {m : PlayerMove} {d : Card}
    (h1 : (targetStack s m).status ≠ Status.failed)
    (h2 : s.drawDeck.getLast? = some d)
    (h3 : compareRanks d m.card = predictedResult m.highLowSame) :
    makeMove m s = (.ok (), correctGuessState s m d) := by
  have h1' : ¬(s.stacks'.get m.stackRow m.stackColumn).status = Status.failed := h1
  simp [makeMove, h1', drawCard_ok_of_getLast _ _ h2, h3, correctGuessState]

/-- The session-state invariant maintained by `startNewGame` and
`makeMove`: card conservation, the won / lost flag discipline, and the
seen-cards ledger. -/
structure SessionInv (s : GameState) : Prop where
  conserve : (↑s.drawDeck + ↑(getAllVisibleCards s.stacks') : Multiset Card)
      = (↑rawDeck : Multiset Card)
  wonDeck : s.won = true → s.drawDeck = []
  notBoth : ¬(s.won = true ∧ s.lost = true)
  lostIff : s.lost = true ↔ allFailed s.stacks'
  seenEq : (↑s.cardCounting.seenCards : Multiset Card)
      = ↑(getAllVisibleCards s.stacks')

/-- A successful draw, packaged with the length and multiset bookkeeping
used by the initialization proof. -/
theorem drawCard_step (deck : List Card) (h : deck.length ≠ 0) :
    ∃ c, deck.getLast? = some c ∧ drawCard deck = .ok (c, deck.dropLast) ∧
      deck.dropLast.length = deck.length - 1 ∧
      (↑deck : Multiset Card) = ↑deck.dropLast + {c} := by
  have hne : deck ≠ [] := fun hn => h (by rw [hn]; rfl)
  have hsome := (List.getLast?_isSome).mpr hne
  cases hl : deck.getLast? with
  | none => rw [hl] at hsome; exact absurd hsome (by simp)
  | some c =>
    exact ⟨c, rfl, drawCard_ok_of_getLast _ _ hl, List.length_dropLast deck,
      coe_deck_split hl⟩

theorem getLast?_none_nil {deck : List Card} (h : deck.getLast? = none) :
    deck = [] := by
  by_contra hne
  have := (List.getLast?_isSome).mpr hne
  rw [h] at this
  exact absurd this (by simp)

theorem sessionInv_init {rand : Nat → Nat} {s : GameState}
    (h : startNewGame rand = .ok s) : SessionInv s := by
  delta startNewGame initializeDeckAndStacks at h
  generalize hdk0 : shuffleDeck rand rawDeck = deck0 at h
  have hperm : (↑deck0 : Multiset Card) = ↑rawDeck := by
    rw [← hdk0]
    exact Multiset.coe_eq_coe.mpr (shuffleDeck_perm rand rawDeck)
  have hlen0 : deck0.length = 52 := by
    rw [← hdk0, shuffleDeck_length]; rfl
  obtain ⟨c1, hg1, hd1, hL1, hm1⟩ := drawCard_step deck0 (by omega)
  obtain ⟨c2, hg2, hd2, hL2, hm2⟩ := drawCard_step deck0.dropLast (by omega)
  obtain ⟨c3, hg3, hd3, hL3, hm3⟩ :=
    drawCard_step deck0.dropLast.dropLast (by omega)
  obtain ⟨c4, hg4, hd4, hL4, hm4⟩ :=
    drawCard_step deck0.dropLast.dropLast.dropLast (by omega)
  obtain ⟨c5, hg5, hd5, hL5, hm5⟩ :=
    drawCard_step deck0.dropLast.dropLast.dropLast.dropLast (by omega)
  obtain ⟨c6, hg6, hd6, hL6, hm6⟩ :=
    drawCard_step deck0.dropLast.dropLast.dropLast.dropLast.dropLast (by omega)
  obtain ⟨c7, hg7, hd7, hL7, hm7⟩ :=
    drawCard_step deck0.dropLast.dropLast.dropLast.dropLast.dropLast.dropLast
      (by omega)
  obtain ⟨c8, hg8, hd8, hL8, hm8⟩ :=
    drawCard_step
      deck0.dropLast.dropLast.dropLast.dropLast.dropLast.dropLast.dropLast
      (by omega)
  obtain ⟨c9, hg9, hd9, hL9, hm9⟩ :=
    drawCard_step
      deck0.dropLast.dropLast.dropLast.dropLast.dropLast.dropLast.dropLast.dropLast
      (by omega)
  simp only [hd1, hd2, hd3, hd4, hd5, hd6, hd7, hd8, hd9,
    Except.ok.injEq] at h
  subst h
  constructor
  · show (↑(deck0.dropLast.dropLast.dropLast.dropLast.dropLast.dropLast.dropLast.dropLast.dropLast) +
        ↑(getAllVisibleCards _) : Multiset Card) = ↑rawDeck
    rw [← hperm, hm1, hm2, hm3, hm4, hm5, hm6, hm7, hm8, hm9]
    simp only [getAllVisibleCards, ← Multiset.coe_add, ← Multiset.coe_singleton]
    abel
  · intro hw
    simp at hw
  · intro hb
    simp at hb
  · simp [allFailed]
  · rfl

theorem sessionInv_step (m : PlayerMove) (s : GameState) (h : SessionInv s) :
    SessionInv ((makeMove m s).2) := by
  by_cases hf : (targetStack s m).status = Status.failed
  · rw [makeMove_failed hf]
    exact h
  · cases hl : s.drawDeck.getLast? with
    | none =>
      rw [makeMove_outOfCards hf (getLast?_none_nil hl)]
      exact h
    | some d =>
      have hwonFalse : s.won = false := by
        cases hw : s.won
        · rfl
        · have := h.wonDeck hw
          rw [this] at hl
          exact Option.noConfusion hl
      have hlostFalse : s.lost = false := by
        cases hlo : s.lost
        · rfl
        · have hAF := h.lostIff.mp hlo
          exact absurd (allFailed_get hAF m.stackRow m.stackColumn) hf
      have hconserve : ∀ st : Status,
          (↑s.drawDeck.dropLast +
            ↑(getAllVisibleCards (s.stacks'.set m.stackRow m.stackColumn
              { cards := (s.stacks'.get m.stackRow m.stackColumn).cards ++ [d],
                status := st })) : Multiset Card) = ↑rawDeck := by
        intro st
        rw [visible_set_append]
        calc (↑s.drawDeck.dropLast +
              (↑(getAllVisibleCards s.stacks') + {d}) : Multiset Card)
            = (↑s.drawDeck.dropLast + {d}) + ↑(getAllVisibleCards s.stacks') := by
              abel
          _ = ↑s.drawDeck + ↑(getAllVisibleCards s.stacks') := by
              rw [← coe_deck_split hl]
          _ = ↑rawDeck := h.conserve
      have hseen : ∀ st : Status,
          (↑(s.cardCounting.seenCards ++ [d]) : Multiset Card) =
            ↑(getAllVisibleCards (s.stacks'.set m.stackRow m.stackColumn
              { cards := (s.stacks'.get m.stackRow m.stackColumn).cards ++ [d],
                status := st })) := by
        intro st
        rw [visible_set_append, ← Multiset.coe_add, ← Multiset.coe_singleton,
          h.seenEq]
      by_cases hc : compareRanks d m.card = predictedResult m.highLowSame
      · rw [makeMove_correct hf hl hc]
        show SessionInv (correctGuessState s m d)
        refine ⟨?_, ?_, ?_, ?_, ?_⟩ <;> simp only [correctGuessState]
        · exact hconserve _
        · intro hw
          simp only [decide_eq_true_eq] at hw
          exact List.length_eq_zero.mp hw
        · rintro ⟨-, hlo⟩
          rw [hlostFalse] at hlo
          exact Bool.noConfusion hlo
        · constructor
          · intro hlo
            rw [hlostFalse] at hlo
            exact Bool.noConfusion hlo
          · intro hAF
            have := allFailed_get hAF m.stackRow m.stackColumn
            rw [Stacks.get_set_self] at this
            exact absurd this hf
        · exact hseen _
      · rw [makeMove_wrong hf hl hc]
        show SessionInv (wrongGuessState s m d)
        refine ⟨?_, ?_, ?_, ?_, ?_⟩ <;> simp only [wrongGuessState]
        · exact hconserve _
        · intro hw
          rw [hwonFalse] at hw
          exact Bool.noConfusion hw
        · rintro ⟨hw, -⟩
          rw [hwonFalse] at hw
          exact Bool.noConfusion hw
        · rw [Bool.not_eq_true', anyActive_eq_false_iff]
        · exact hseen _

/-- Every reachable session state satisfies the invariant. -/
theorem reachable_sessionInv {s : GameState} (h : Reachable s) :
    SessionInv s := by
  obtain ⟨rand, s0, h0, hsteps⟩ := h
  induction hsteps with
  | refl => exact sessionInv_init h0
  | tail hab hbc ih =>
    obtain ⟨m, hm⟩ := hbc
    rw [← hm]
    exact sessionInv_step m _ ih

/-- A step from a reachable state stays reachable. -/
theorem reachable_step {s : GameState} (m : PlayerMove) (h : Reachable s) :
    Reachable ((makeMove m s).2) := by
  obtain ⟨rand, s0, h0, hsteps⟩ := h
  exact ⟨rand, s0, h0, hsteps.tail ⟨m, rfl⟩⟩

/-- The three branch counters of `calculateProbabilities` partition the
remaining population. -/
theorem counts_sum (currentRank : Nat) (l : List Card) :
    (l.countP fun card => decide (getRankValue card.rank > currentRank))
      + (l.countP fun card => !(decide (getRankValue card.rank > currentRank))
          && decide (getRankValue card.rank < currentRank))
      + (l.countP fun card => !(decide (getRankValue card.rank > currentRank))
          && !(decide (getRankValue card.rank < currentRank)))
      = l.length := by
  induction l with
  | nil => rfl
  | cons a l ih =>
    simp only [List.countP_cons, List.length_cons, Bool.and_eq_true,
      Bool.not_eq_true', decide_eq_true_eq, decide_eq_false_iff_not]
    by_cases h1 : getRankValue a.rank > currentRank
    · rw [if_pos h1, if_neg (fun h => h.1 h1), if_neg (fun h => h.1 h1)]
      omega
    · by_cases h2 : getRankValue a.rank < currentRank
      · rw [if_neg h1, if_pos ⟨h1, h2⟩, if_neg (fun h => h.2 h2)]
        omega
      · rw [if_neg h1, if_neg (fun h => h2 h.2), if_pos ⟨h1, h2⟩]
        omega

theorem countP_lower_eq (currentRank : Nat) (l : List Card) :
    (l.countP fun card => !(decide (getRankValue card.rank > currentRank))
        && decide (getRankValue card.rank < currentRank))
      = l.countP fun card => decide (getRankValue card.rank < currentRank) := by
  refine List.countP_congr fun x _ => ?_
  by_cases h1 : getRankValue x.rank > currentRank
  · have h2 : ¬getRankValue x.rank < currentRank := by omega
    simp [h1, h2]
  · simp [h1]

theorem countP_same_eq (currentRank : Nat) (l : List Card) :
    (l.countP fun card => !(decide (getRankValue card.rank > currentRank))
        && !(decide (getRankValue card.rank < currentRank)))
      = l.countP fun card => decide (getRankValue card.rank = currentRank) := by
  refine List.countP_congr fun x _ => ?_
  by_cases h1 : getRankValue x.rank > currentRank
  · have h2 : ¬getRankValue x.rank = currentRank := by omega
    simp [h1, h2]
  · by_cases h2 : getRankValue x.rank < currentRank
    · have h3 : ¬getRankValue x.rank = currentRank := by omega
      simp [h1, h2, h3]
    · have h3 : getRankValue x.rank = currentRank := by omega
      simp [h1, h2, h3]

theorem calcProb_total (c : Card) (p : List Card) :
    (calculateProbabilities c p).total = p.length := rfl

theorem calcProb_higher (c : Card) (p : List Card) :
    (calculateProbabilities c p).higher =
      if p.length > 0
      then ((p.countP fun card =>
          decide (getRankValue card.rank > getRankValue c.rank)) : ℚ)
        / (p.length : ℚ)
      else 0 := rfl

theorem calcProb_lower (c : Card) (p : List Card) :
    (calculateProbabilities c p).lower =
      if p.length > 0
      then ((p.countP fun card =>
          !(decide (getRankValue card.rank > getRankValue c.rank))
            && decide (getRankValue card.rank < getRankValue c.rank)) : ℚ)
        / (p.length : ℚ)
      else 0 := rfl

theorem calcProb_same (c : Card) (p : List Card) :
    (calculateProbabilities c p).same =
      if p.length > 0
      then ((p.countP fun card =>
          !(decide (getRankValue card.rank > getRankValue c.rank))
            && !(decide (getRankValue card.rank < getRankValue c.rank))) : ℚ)
        / (p.length : ℚ)
      else 0 := rfl

/-- C4: Probability law: for every reference card and every remaining-card
population, `calculateProbabilities` returns
higher = (count of remaining cards with rank value strictly greater than the
reference's) / n, lower and same analogously, with
higher + lower + same = 1 whenever n > 0 (exact in rational arithmetic),
and returns all three probabilities equal to 0 with total = 0 when n = 0;
total always equals the size of the remaining population. -/
theorem probability_law (referenceCard : Card) (remainingCards : List Card) :
    (calculateProbabilities referenceCard remainingCards).total
        = remainingCards.length
    ∧ (remainingCards.length ≠ 0 →
        (calculateProbabilities referenceCard remainingCards).higher
            = ((remainingCards.countP fun card =>
                decide (getRankValue card.rank
                  > getRankValue referenceCard.rank)) : ℚ)
              / (remainingCards.length : ℚ)
        ∧ (calculateProbabilities referenceCard remainingCards).lower
            = ((remainingCards.countP fun card =>
                decide (getRankValue card.rank
                  < getRankValue referenceCard.rank)) : ℚ)
              / (remainingCards.length : ℚ)
        ∧ (calculateProbabilities referenceCard remainingCards).same
            = ((remainingCards.countP fun card =>
                decide (getRankValue card.rank
                  = getRankValue referenceCard.rank)) : ℚ)
              / (remainingCards.length : ℚ)
        ∧ (calculateProbabilities referenceCard remainingCards).higher
            + (calculateProbabilities referenceCard remainingCards).lower
            + (calculateProbabilities referenceCard remainingCards).same = 1)
    ∧ (remainingCards.length = 0 →
        (calculateProbabilities referenceCard remainingCards).higher = 0
        ∧ (calculateProbabilities referenceCard remainingCards).lower = 0
        ∧ (calculateProbabilities referenceCard remainingCards).same = 0
        ∧ (calculateProbabilities referenceCard remainingCards).total = 0) := by
  refine ⟨rfl, ?_, ?_⟩
  · intro hn
    have hpos : remainingCards.length > 0 := Nat.pos_of_ne_zero hn
    have hcast : (remainingCards.length : ℚ) ≠ 0 := by
      exact_mod_cast hn
    rw [calcProb_higher, calcProb_lower, calcProb_same, if_pos hpos,
      if_pos hpos, if_pos hpos]
    refine ⟨rfl, ?_, ?_, ?_⟩
    · rw [countP_lower_eq]
    · rw [countP_same_eq]
    · rw [div_add_div_same, div_add_div_same, ← Nat.cast_add, ← Nat.cast_add,
        counts_sum]
      exact div_self hcast
  · intro hn
    have hneg : ¬remainingCards.length > 0 := by omega
    rw [calcProb_higher, calcProb_lower, calcProb_same, calcProb_total,
      if_neg hneg, if_neg hneg, if_neg hneg]
    exact ⟨rfl, rfl, rfl, hn⟩

/-- Witness for C4 at a concrete reference card and one-card population. -/
theorem probability_law_witness :
    ([({ suit := Suit.Spades, rank := Rank.R9 } : Card)].length ≠ 0)
    ∧ (calculateProbabilities { suit := Suit.Hearts, rank := Rank.R7 }
          [{ suit := Suit.Spades, rank := Rank.R9 }]).higher
        + (calculateProbabilities { suit := Suit.Hearts, rank := Rank.R7 }
          [{ suit := Suit.Spades, rank := Rank.R9 }]).lower
        + (calculateProbabilities { suit := Suit.Hearts, rank := Rank.R7 }
          [{ suit := Suit.Spades, rank := Rank.R9 }]).same = 1 :=
  ⟨by decide,
    ((probability_law { suit := Suit.Hearts, rank := Rank.R7 }
      [{ suit := Suit.Spades, rank := Rank.R9 }]).2.1 (by decide)).2.2.2⟩

/-- A fixed random oracle used to build concrete witness states. -/
def witnessRand : Nat → Nat := fun _ => 0

/-- The concrete session produced by `startNewGame` under `witnessRand`. -/
def witnessState : GameState :=
  match startNewGame witnessRand with
  | .ok s => s
  | .error _ => default

set_option maxRecDepth 4000 in
theorem startNewGame_witnessRand :
    startNewGame witnessRand = .ok witnessState := by
  rfl

theorem reachable_witnessState : Reachable witnessState :=
  ⟨witnessRand, witnessState, startNewGame_witnessRand,
    Relation.ReflTransGen.refl⟩

/-- C1: Card conservation: for every session state reachable by
`startNewGame` followed by any sequence of `makeMove` calls, the number of
cards in the draw pile plus the sum of the card counts of all 9 stacks
equals 52, and the multiset of cards across the draw pile and all stacks
is exactly the 52 distinct suit/rank combinations, with no duplicates and
no omissions. -/
theorem card_conservation {s : GameState} (h : Reachable s) :
    (s.drawDeck.length +
      (s.stacks'.r1c1.cards.length + s.stacks'.r1c2.cards.length +
       s.stacks'.r1c3.cards.length + s.stacks'.r2c1.cards.length +
       s.stacks'.r2c2.cards.length + s.stacks'.r2c3.cards.length +
       s.stacks'.r3c1.cards.length + s.stacks'.r3c2.cards.length +
       s.stacks'.r3c3.cards.length) = 52)
    ∧ (↑s.drawDeck + ↑(getAllVisibleCards s.stacks') : Multiset Card)
        = (↑rawDeck : Multiset Card)
    ∧ (↑s.drawDeck + ↑(getAllVisibleCards s.stacks') : Multiset Card).Nodup
    ∧ rawDeck.length = 52 ∧ rawDeck.Nodup := by
  have hc := (reachable_sessionInv h).conserve
  have hnodup : rawDeck.Nodup := by decide
  refine ⟨?_, hc, ?_, rfl, hnodup⟩
  · have h2 := congrArg Multiset.card hc
    simp only [Multiset.card_add, Multiset.coe_card] at h2
    have h52 : rawDeck.length = 52 := rfl
    simp only [getAllVisibleCards, List.length_append] at h2
    omega
  · rw [hc]
    exact Multiset.coe_nodup.mpr hnodup

/-- Witness for C1 at the concrete freshly started session. -/
theorem card_conservation_witness :
    (witnessState.drawDeck.length +
      (witnessState.stacks'.r1c1.cards.length +
       witnessState.stacks'.r1c2.cards.length +
       witnessState.stacks'.r1c3.cards.length +
       witnessState.stacks'.r2c1.cards.length +
       witnessState.stacks'.r2c2.cards.length +
       witnessState.stacks'.r2c3.cards.length +
       witnessState.stacks'.r3c1.cards.length +
       witnessState.stacks'.r3c2.cards.length +
       witnessState.stacks'.r3c3.cards.length) = 52)
    ∧ (↑witnessState.drawDeck + ↑(getAllVisibleCards witnessState.stacks')
        : Multiset Card) = (↑rawDeck : Multiset Card)
    ∧ (↑witnessState.drawDeck + ↑(getAllVisibleCards witnessState.stacks')
        : Multiset Card).Nodup
    ∧ rawDeck.length = 52 ∧ rawDeck.Nodup :=
  card_conservation reachable_witnessState

/-- C5: Seen-cards ledger invariant: for every reachable session state,
the `seenCards` ledger equals the multiset union of all cards currently
present across all 9 stacks, including buried cards. -/
theorem seenCards_ledger {s : GameState} (h : Reachable s) :
    (↑s.cardCounting.seenCards : Multiset Card)
      = ↑(getAllVisibleCards s.stacks') :=
  (reachable_sessionInv h).seenEq

/-- Witness for C5 at the concrete freshly started session. -/
theorem seenCards_ledger_witness :
    (↑witnessState.cardCounting.seenCards : Multiset Card)
      = ↑(getAllVisibleCards witnessState.stacks') :=
  seenCards_ledger reachable_witnessState

/-- C6: Failed-stack rejection with atomicity: for every session state
and every move whose targeted stack has status Failed, `makeMove` raises
InvalidMove and leaves the entire state — the pair of caller-visible
result and store contents — unchanged. -/
theorem failedStack_rejection (s : GameState) (m : PlayerMove)
    (h : (targetStack s m).status = Status.failed) :
    makeMove m s = (.error .invalidMove, s) :=
  makeMove_failed h

/-- A concrete state whose first stack is failed, for the C6 witness. -/
def failedTargetState : GameState :=
  { drawDeck := [{ suit := Suit.Clubs, rank := Rank.R5 }]
    stacks' :=
      { r1c1 := { cards := [{ suit := Suit.Spades, rank := Rank.King }], status := .failed }
        r1c2 := { cards := [{ suit := Suit.Hearts, rank := Rank.R2 }], status := .active }
        r1c3 := { cards := [{ suit := Suit.Hearts, rank := Rank.R3 }], status := .active }
        r2c1 := { cards := [{ suit := Suit.Hearts, rank := Rank.R4 }], status := .active }
        r2c2 := { cards := [{ suit := Suit.Hearts, rank := Rank.R5 }], status := .active }
        r2c3 := { cards := [{ suit := Suit.Hearts, rank := Rank.R6 }], status := .active }
        r3c1 := { cards := [{ suit := Suit.Hearts, rank := Rank.R7 }], status := .active }
        r3c2 := { cards := [{ suit := Suit.Hearts, rank := Rank.R8 }], status := .active }
        r3c3 := { cards := [{ suit := Suit.Hearts, rank := Rank.R9 }], status := .active } }
    won := false
    lost := false
    cardCounting := { seenCards := [], cardCounts := getCardCounts [], probabilities := none } }

/-- The move targeting the failed stack, for the C6 witness. -/
def failedTargetMove : PlayerMove :=
  { stackRow := 0, stackColumn := 0, highLowSame := .high,
    card := { suit := Suit.Spades, rank := Rank.King } }

/-- Witness for C6 at a concrete state and move. -/
theorem failedStack_rejection_witness :
    (targetStack failedTargetState failedTargetMove).status = Status.failed
    ∧ makeMove failedTargetMove failedTargetState
        = (.error .invalidMove, failedTargetState) :=
  ⟨by decide,
    failedStack_rejection failedTargetState failedTargetMove (by decide)⟩

/-- C7: Empty-deck commit is a swallowed no-op: with an empty draw pile
and a non-Failed target, `makeMove` changes nothing and surfaces no
error; the internal OutOfCards condition raised by `drawCard` is caught
and discarded. -/
theorem emptyDeck_noop (s : GameState) (m : PlayerMove)
    (h1 : s.drawDeck = [])
    (h2 : (targetStack s m).status ≠ Status.failed) :
    drawCard s.drawDeck = .error .outOfCards
    ∧ makeMove m s = (.ok (), s) :=
  ⟨by rw [h1]; rfl, makeMove_outOfCards h2 h1⟩

/-- A concrete empty-deck state for the C7 witness. -/
def emptyDeckState : GameState :=
  { failedTargetState with drawDeck := [] }

/-- A move targeting an active stack, for the C7 witness. -/
def activeTargetMove : PlayerMove :=
  { stackRow := 0, stackColumn := 1, highLowSame := .low,
    card := { suit := Suit.Hearts, rank := Rank.R2 } }

/-- Witness for C7 at a concrete state and move. -/
theorem emptyDeck_noop_witness :
    emptyDeckState.drawDeck = []
    ∧ (targetStack emptyDeckState activeTargetMove).status ≠ Status.failed
    ∧ drawCard emptyDeckState.drawDeck = .error .outOfCards
    ∧ makeMove activeTargetMove emptyDeckState = (.ok (), emptyDeckState) :=
  ⟨by decide, by decide,
    (emptyDeck_noop emptyDeckState activeTargetMove (by decide) (by decide)).1,
    (emptyDeck_noop emptyDeckState activeTargetMove (by decide) (by decide)).2⟩

/-- A concrete move used by several witnesses: target the top-left stack,
guess Same against the Ace of Hearts it holds in `witnessState`. -/
def moveW : PlayerMove :=
  { stackRow := 0, stackColumn := 0, highLowSame := .same,
    card := { suit := Suit.Hearts, rank := Rank.Ace } }

/-- C8: Mutual exclusivity of outcomes: for every reachable session
state, `won` and `lost` are never both true, and once either flag is true
no subsequent `makeMove` changes the state — it either no-ops (`.ok`)
or raises InvalidMove. -/
theorem outcome_exclusive_terminal {s : GameState} (h : Reachable s)
    (m : PlayerMove) :
    ¬(s.won = true ∧ s.lost = true)
    ∧ ((s.won = true ∨ s.lost = true) →
        (makeMove m s).2 = s
        ∧ ((makeMove m s).1 = .ok ()
            ∨ (makeMove m s).1 = .error .invalidMove)) := by
  have inv := reachable_sessionInv h
  refine ⟨inv.notBoth, ?_⟩
  intro hterm
  by_cases hf : (targetStack s m).status = Status.failed
  · rw [makeMove_failed hf]
    exact ⟨rfl, Or.inr rfl⟩
  · rcases hterm with hw | hlo
    · rw [makeMove_outOfCards hf (inv.wonDeck hw)]
      exact ⟨rfl, Or.inl rfl⟩
    · exact absurd (allFailed_get (inv.lostIff.mp hlo) m.stackRow
        m.stackColumn) hf

/-- Witness for C8 at the concrete freshly started session. -/
theorem outcome_exclusive_terminal_witness :
    ¬(witnessState.won = true ∧ witnessState.lost = true)
    ∧ ((witnessState.won = true ∨ witnessState.lost = true) →
        (makeMove moveW witnessState).2 = witnessState
        ∧ ((makeMove moveW witnessState).1 = .ok ()
            ∨ (makeMove moveW witnessState).1 = .error .invalidMove)) :=
  outcome_exclusive_terminal reachable_witnessState moveW

/-- C2: Win condition: for every reachable session state, `makeMove` ends
with `won = true` exactly when either the game was already won, or the
targeted stack is Active, the guess is correct (the drawn card's rank
comparison against `move.card` matches the prediction) and the draw pile
becomes empty after removing the drawn card (it had exactly one card);
in the freshly winning case the targeted stack's status remains Active
and its length grows by one, and no incorrect move ever sets `won`. -/
theorem win_condition {s : GameState} (m : PlayerMove) (h : Reachable s) :
    ((makeMove m s).2.won = true ↔
      (s.won = true ∨
        ((targetStack s m).status = Status.active
          ∧ s.drawDeck.length = 1
          ∧ ∃ d, s.drawDeck.getLast? = some d
              ∧ compareRanks d m.card = predictedResult m.highLowSame)))
    ∧ (s.won = false → (makeMove m s).2.won = true →
        (targetStack (makeMove m s).2 m).status = Status.active
        ∧ (targetStack (makeMove m s).2 m).cards.length
            = (targetStack s m).cards.length + 1)
    ∧ (∀ d, s.drawDeck.getLast? = some d →
        compareRanks d m.card ≠ predictedResult m.highLowSame →
        (makeMove m s).2.won = s.won) := by
  have inv := reachable_sessionInv h
  by_cases hf : (targetStack s m).status = Status.failed
  · rw [makeMove_failed hf]
    refine ⟨?_, ?_, ?_⟩
    · constructor
      · exact Or.inl
      · rintro (hw | ⟨ha, -, -⟩)
        · exact hw
        · rw [hf] at ha
          exact Status.noConfusion ha
    · intro h1 h2
      rw [h1] at h2
      exact Bool.noConfusion h2
    · intro d _ _
      rfl
  · cases hl : s.drawDeck.getLast? with
    | none =>
      have hnil := getLast?_none_nil hl
      rw [makeMove_outOfCards hf hnil]
      refine ⟨?_, ?_, ?_⟩
      · constructor
        · exact Or.inl
        · rintro (hw | ⟨-, hlen, -⟩)
          · exact hw
          · rw [hnil] at hlen
            exact absurd hlen (by simp)
      · intro h1 h2
        rw [h1] at h2
        exact Bool.noConfusion h2
      · intro d hd hc
        exact Option.noConfusion hd
    | some d0 =>
      have hwonFalse : s.won = false := by
        cases hw : s.won
        · rfl
        · have := inv.wonDeck hw
          rw [this] at hl
          exact Option.noConfusion hl
      have hlen_pos : s.drawDeck.length ≠ 0 := by
        intro h0
        rw [List.length_eq_zero.mp h0] at hl
        exact Option.noConfusion hl
      have hdropLen := List.length_dropLast s.drawDeck
      by_cases hc : compareRanks d0 m.card = predictedResult m.highLowSame
      · rw [makeMove_correct hf hl hc]
        refine ⟨?_, ?_, ?_⟩
        · show decide (s.drawDeck.dropLast.length = 0) = true ↔ _
          rw [hwonFalse]
          constructor
          · intro hw
            simp only [decide_eq_true_eq] at hw
            exact Or.inr ⟨Status.eq_active_of_ne_failed hf, by omega, d0, rfl,
              hc⟩
          · rintro (hw | ⟨-, hlen, -⟩)
            · exact Bool.noConfusion hw
            · simp only [decide_eq_true_eq]
              omega
        · intro _ hw
          show (targetStack (correctGuessState s m d0) m).status
              = Status.active ∧ _
          simp only [targetStack, correctGuessState, Stacks.get_set_self]
          refine ⟨Status.eq_active_of_ne_failed hf, ?_⟩
          rw [List.length_append]
          rfl
        · intro d hd hcon
          cases hd
          exact absurd hc hcon
      · rw [makeMove_wrong hf hl hc]
        refine ⟨?_, ?_, ?_⟩
        · show s.won = true ↔ _
          rw [hwonFalse]
          constructor
          · intro hw
            exact Bool.noConfusion hw
          · rintro (hw | ⟨-, -, d, hd, hcor⟩)
            · exact hw
            · cases hd
              exact absurd hcor hc
        · intro h1 h2
          have h2' : s.won = true := h2
          rw [h1] at h2'
          exact Bool.noConfusion h2'
        · intro d hd hcon
          rfl

/-- Witness for C2 at the concrete freshly started session and a
concrete move. -/
theorem win_condition_witness :
    ((makeMove moveW witnessState).2.won = true ↔
      (witnessState.won = true ∨
        ((targetStack witnessState moveW).status = Status.active
          ∧ witnessState.drawDeck.length = 1
          ∧ ∃ d, witnessState.drawDeck.getLast? = some d
              ∧ compareRanks d moveW.card
                  = predictedResult moveW.highLowSame)))
    ∧ (witnessState.won = false → (makeMove moveW witnessState).2.won = true →
        (targetStack (makeMove moveW witnessState).2 moveW).status
            = Status.active
        ∧ (targetStack (makeMove moveW witnessState).2 moveW).cards.length
            = (targetStack witnessState moveW).cards.length + 1)
    ∧ (∀ d, witnessState.drawDeck.getLast? = some d →
        compareRanks d moveW.card ≠ predictedResult moveW.highLowSame →
        (makeMove moveW witnessState).2.won = witnessState.won) :=
  win_condition moveW reachable_witnessState

/-- C3: Loss condition: for every reachable session state, `makeMove`
ends with `lost = true` exactly when every one of the 9 stacks has status
Failed afterwards; an incorrect guess sets the targeted stack's status to
Failed while still appending the drawn card to that stack, and a correct
guess never changes `lost`. -/
theorem loss_condition {s : GameState} (m : PlayerMove) (h : Reachable s) :
    ((makeMove m s).2.lost = true ↔ allFailed (makeMove m s).2.stacks')
    ∧ (∀ d, s.drawDeck.getLast? = some d →
        (targetStack s m).status ≠ Status.failed →
        compareRanks d m.card ≠ predictedResult m.highLowSame →
        (targetStack (makeMove m s).2 m).status = Status.failed
        ∧ (targetStack (makeMove m s).2 m).cards
            = (targetStack s m).cards ++ [d])
    ∧ (∀ d, s.drawDeck.getLast? = some d →
        (targetStack s m).status ≠ Status.failed →
        compareRanks d m.card = predictedResult m.highLowSame →
        (makeMove m s).2.lost = s.lost) := by
  refine ⟨(reachable_sessionInv (reachable_step m h)).lostIff, ?_, ?_⟩
  · intro d hd hf hc
    rw [makeMove_wrong hf hd hc]
    show (targetStack (wrongGuessState s m d) m).status = Status.failed ∧ _
    simp [targetStack, wrongGuessState, Stacks.get_set_self]
  · intro d hd hf hc
    rw [makeMove_correct hf hd hc]
    rfl

/-- Witness for C3 at the concrete freshly started session and a
concrete move. -/
theorem loss_condition_witness :
    ((makeMove moveW witnessState).2.lost = true ↔
        allFailed (makeMove moveW witnessState).2.stacks')
    ∧ (∀ d, witnessState.drawDeck.getLast? = some d →
        (targetStack witnessState moveW).status ≠ Status.failed →
        compareRanks d moveW.card ≠ predictedResult moveW.highLowSame →
        (targetStack (makeMove moveW witnessState).2 moveW).status
            = Status.failed
        ∧ (targetStack (makeMove moveW witnessState).2 moveW).cards
            = (targetStack witnessState moveW).cards ++ [d])
    ∧ (∀ d, witnessState.drawDeck.getLast? = some d →
        (targetStack witnessState moveW).status ≠ Status.failed →
        compareRanks d moveW.card = predictedResult moveW.highLowSame →
        (makeMove moveW witnessState).2.lost = witnessState.lost) :=
  loss_condition moveW reachable_witnessState

/-- A move targeting the failed stack of `failedTargetState` with a
prediction (Lower than the King of Spades) that the next drawn card
(5 of Clubs) satisfies, for the C9 counterexample. -/
def lowOnFailedMove : PlayerMove :=
  { stackRow := 0, stackColumn := 0, highLowSame := .low,
    card := { suit := Suit.Spades, rank := Rank.King } }

/-- C9 counterexample: with a non-empty draw pile and a move targeting a
Failed stack, `peekMove` reports `wouldBeCorrect = true`, yet `makeMove`
on the same state and move raises InvalidMove, removes no card from the
draw pile, and does not take the correct-guess branch (the targeted
stack does not stay Active and does not grow) — refuting the claim's
unrestricted "every move" equivalence between `wouldBeCorrect` and the
commit outcome. -/
theorem peek_commit_disagree_on_failed_target :
    failedTargetState.drawDeck ≠ []
    ∧ (peekMove lowOnFailedMove failedTargetState).1
        = .ok ⟨{ suit := Suit.Clubs, rank := Rank.R5 }, true⟩
    ∧ makeMove lowOnFailedMove failedTargetState
        = (.error .invalidMove, failedTargetState)
    ∧ (makeMove lowOnFailedMove failedTargetState).2.drawDeck
        = failedTargetState.drawDeck
    ∧ ¬((targetStack (makeMove lowOnFailedMove failedTargetState).2
            lowOnFailedMove).status = Status.active
        ∧ (targetStack (makeMove lowOnFailedMove failedTargetState).2
            lowOnFailedMove).cards
          = (targetStack failedTargetState lowOnFailedMove).cards
            ++ [{ suit := Suit.Clubs, rank := Rank.R5 }]) := by
  decide

/-- C9 (amended): Peek agrees with commit and mutates nothing: for every
session state with a non-empty draw pile and every move, `peekMove`
leaves the store unchanged (so consecutive calls without an intervening
`makeMove` return identical results) and returns the card at the top of
the draw pile — the card `drawCard` would pop — with `wouldBeCorrect`
computed solely from the move's reference card; and for every such move
whose targeted stack is not Failed, `makeMove` removes exactly that card
from the draw pile, and `wouldBeCorrect` is true if and only if
`makeMove` on the same state and move takes the correct-guess branch
(the targeted stack stays Active and grows by the drawn card).  (A move
targeting a Failed stack instead raises InvalidMove and removes no card,
even when `wouldBeCorrect` is true — see the counterexample above.) -/
theorem peek_agrees_commit (s : GameState) (m : PlayerMove)
    (hne : s.drawDeck ≠ []) :
    (peekMove m s).2 = s
    ∧ peekMove m ((peekMove m s).2) = peekMove m s
    ∧ ∃ d, s.drawDeck.getLast? = some d
        ∧ (peekMove m s).1 = .ok
            ⟨d, decide (compareRanks d m.card = predictedResult m.highLowSame)⟩
        ∧ drawCard s.drawDeck = .ok (d, s.drawDeck.dropLast)
        ∧ ((targetStack s m).status ≠ Status.failed →
            (makeMove m s).2.drawDeck = s.drawDeck.dropLast
            ∧ ((compareRanks d m.card = predictedResult m.highLowSame) ↔
                ((targetStack (makeMove m s).2 m).status = Status.active
                  ∧ (targetStack (makeMove m s).2 m).cards
                      = (targetStack s m).cards ++ [d]))) := by
  obtain ⟨d, hg, hdraw, -, -⟩ := drawCard_step s.drawDeck
    (fun h0 => hne (List.length_eq_zero.mp h0))
  refine ⟨rfl, rfl, d, hg, ?_, hdraw, ?_⟩
  · show (peekMove m s).1 = _
    simp only [peekMove, hg]
  · intro hf
    refine ⟨?_, ?_⟩
    · by_cases hc : compareRanks d m.card = predictedResult m.highLowSame
      · rw [makeMove_correct hf hg hc]
        rfl
      · rw [makeMove_wrong hf hg hc]
        rfl
    · by_cases hc : compareRanks d m.card = predictedResult m.highLowSame
      · rw [makeMove_correct hf hg hc]
        refine iff_of_true hc ?_
        show (targetStack (correctGuessState s m d) m).status = Status.active ∧ _
        simp only [targetStack, correctGuessState, Stacks.get_set_self]
        exact ⟨Status.eq_active_of_ne_failed hf, trivial⟩
      · rw [makeMove_wrong hf hg hc]
        refine iff_of_false hc ?_
        rintro ⟨hstat, -⟩
        have hstat' : (targetStack (wrongGuessState s m d) m).status
            = Status.active := hstat
        simp only [targetStack, wrongGuessState, Stacks.get_set_self] at hstat'
        exact Status.noConfusion hstat'

set_option maxRecDepth 8000 in
/-- Witness for the amended C9 at the concrete freshly started session
and a concrete move. -/
theorem peek_agrees_commit_witness :
    (peekMove moveW witnessState).2 = witnessState
    ∧ peekMove moveW ((peekMove moveW witnessState).2)
        = peekMove moveW witnessState
    ∧ ∃ d, witnessState.drawDeck.getLast? = some d
        ∧ (peekMove moveW witnessState).1 = .ok
            ⟨d, decide (compareRanks d moveW.card
              = predictedResult moveW.highLowSame)⟩
        ∧ drawCard witnessState.drawDeck
            = .ok (d, witnessState.drawDeck.dropLast)
        ∧ ((targetStack witnessState moveW).status ≠ Status.failed →
            (makeMove moveW witnessState).2.drawDeck
                = witnessState.drawDeck.dropLast
            ∧ ((compareRanks d moveW.card = predictedResult moveW.highLowSame) ↔
                ((targetStack (makeMove moveW witnessState).2 moveW).status
                    = Status.active
                  ∧ (targetStack (makeMove moveW witnessState).2 moveW).cards
                      = (targetStack witnessState moveW).cards ++ [d]))) :=
  peek_agrees_commit witnessState moveW (by decide)

/-- C10: Outcome is independent of the stack's actual cards: for two
states with the same draw pile and the same per-stack statuses but
arbitrary stack card sequences, and any move, `peekMove` returns the same
result, and `makeMove` returns the same caller-visible result, the same
resulting draw pile, and the same resulting per-stack statuses — neither
operation consults the targeted stack's actual top card; correctness is
judged solely against the card supplied in the move. -/
theorem outcome_ignores_stack_cards (s1 s2 : GameState) (m : PlayerMove)
    (hdeck : s1.drawDeck = s2.drawDeck)
    (hstat : ∀ r c : Fin 3,
      (s1.stacks'.get r c).status = (s2.stacks'.get r c).status) :
    (peekMove m s1).1 = (peekMove m s2).1
    ∧ (makeMove m s1).1 = (makeMove m s2).1
    ∧ (makeMove m s1).2.drawDeck = (makeMove m s2).2.drawDeck
    ∧ ∀ r c : Fin 3, ((makeMove m s1).2.stacks'.get r c).status
        = ((makeMove m s2).2.stacks'.get r c).status := by
  have hts : (targetStack s1 m).status = (targetStack s2 m).status :=
    hstat m.stackRow m.stackColumn
  have hpeek : (peekMove m s1).1 = (peekMove m s2).1 := by
    simp only [peekMove, hdeck]
  by_cases hf : (targetStack s1 m).status = Status.failed
  · have hf2 : (targetStack s2 m).status = Status.failed := hts ▸ hf
    rw [makeMove_failed hf, makeMove_failed hf2]
    exact ⟨hpeek, rfl, hdeck, hstat⟩
  · have hf2 : (targetStack s2 m).status ≠ Status.failed := by
      rw [← hts]
      exact hf
    cases hl : s1.drawDeck.getLast? with
    | none =>
      have hl2 : s2.drawDeck.getLast? = none := by
        rw [← hdeck]
        exact hl
      rw [makeMove_outOfCards hf (getLast?_none_nil hl),
        makeMove_outOfCards hf2 (getLast?_none_nil hl2)]
      exact ⟨hpeek, rfl, hdeck, hstat⟩
    | some d =>
      have hl2 : s2.drawDeck.getLast? = some d := by
        rw [← hdeck]
        exact hl
      have hstep : ∀ st : Status, ∀ r c : Fin 3,
          ((s1.stacks'.set m.stackRow m.stackColumn
            { cards := (s1.stacks'.get m.stackRow m.stackColumn).cards ++ [d],
              status := st }).get r c).status
          = ((s2.stacks'.set m.stackRow m.stackColumn
            { cards := (s2.stacks'.get m.stackRow m.stackColumn).cards ++ [d],
              status := st }).get r c).status := by
        intro st r c
        by_cases hrc : m.stackRow = r ∧ m.stackColumn = c
        · obtain ⟨rfl, rfl⟩ := hrc
          rw [Stacks.get_set_self, Stacks.get_set_self]
        · rw [Stacks.get_set_ne _ _ _ _ _ _ hrc,
            Stacks.get_set_ne _ _ _ _ _ _ hrc]
          exact hstat r c
      by_cases hc : compareRanks d m.card = predictedResult m.highLowSame
      · rw [makeMove_correct hf hl hc, makeMove_correct hf2 hl2 hc]
        refine ⟨hpeek, rfl,
          show s1.drawDeck.dropLast = s2.drawDeck.dropLast by rw [hdeck], ?_⟩
        intro r c
        show ((correctGuessState s1 m d).stacks'.get r c).status
            = ((correctGuessState s2 m d).stacks'.get r c).status
        simp only [correctGuessState]
        have h1 := hstep (s1.stacks'.get m.stackRow m.stackColumn).status r c
        by_cases hrc : m.stackRow = r ∧ m.stackColumn = c
        · obtain ⟨rfl, rfl⟩ := hrc
          rw [Stacks.get_set_self, Stacks.get_set_self]
          exact hts
        · rw [Stacks.get_set_ne _ _ _ _ _ _ hrc,
            Stacks.get_set_ne _ _ _ _ _ _ hrc]
          exact hstat r c
      · rw [makeMove_wrong hf hl hc, makeMove_wrong hf2 hl2 hc]
        refine ⟨hpeek, rfl,
          show s1.drawDeck.dropLast = s2.drawDeck.dropLast by rw [hdeck], ?_⟩
        intro r c
        show ((wrongGuessState s1 m d).stacks'.get r c).status
            = ((wrongGuessState s2 m d).stacks'.get r c).status
        simp only [wrongGuessState]
        exact hstep Status.failed r c

/-- `witnessState` with the top-left stack's card sequence replaced (same
status), for the C10 witness. -/
def alteredWitnessState : GameState :=
  { witnessState with
      stacks' :=
        { witnessState.stacks' with
            r1c1 := { cards := [{ suit := Suit.Clubs, rank := Rank.R3 }, { suit := Suit.Diamonds, rank := Rank.Jack }], status := witnessState.stacks'.r1c1.status } } }

set_option maxRecDepth 8000 in
/-- Witness for C10 at two concrete states that differ only in stack
card sequences. -/
theorem outcome_ignores_stack_cards_witness :
    (peekMove moveW witnessState).1 = (peekMove moveW alteredWitnessState).1
    ∧ (makeMove moveW witnessState).1 = (makeMove moveW alteredWitnessState).1
    ∧ (makeMove moveW witnessState).2.drawDeck
        = (makeMove moveW alteredWitnessState).2.drawDeck
    ∧ ∀ r c : Fin 3, ((makeMove moveW witnessState).2.stacks'.get r c).status
        = ((makeMove moveW alteredWitnessState).2.stacks'.get r c).status :=
  outcome_ignores_stack_cards witnessState alteredWitnessState moveW
    (by decide) (by decide)
